import Mathlib

/-!
Shallow embedding of the flowread RSVP reading application core:
tokenizer, fixation-point (ORP) calculator, chapter/landmark detector,
playback engine tick/play logic, and the library store operations,
together with theorems checking the specification's claims.
-/

set_option maxRecDepth 4096

namespace Flowread

/-- Whitespace class used by the source's regular expressions (`\s`)
and by JavaScript `String.trim`, restricted to the ASCII range. -/
def isWs (c : Char) : Bool :=
  c == ' ' || c == '\t' || c == '\n' || c == '\r' || c == '\x0b' || c == '\x0c'

/-- Embedding of JavaScript `s.split(/\s+/)` on a character list:
chunks between maximal whitespace runs, including empty chunks at the
ends (`"".split` gives `[""]`, `" a".split` gives `["", "a"]`).
`acc` holds the reversed current chunk, `prevWs` records whether the
previous character was part of a whitespace run. -/
def splitWsAux : List Char → List Char → Bool → List (List Char)
  | [], acc, _ => [acc.reverse]
  | c :: cs, acc, prevWs =>
    if isWs c then
      if prevWs then splitWsAux cs acc true
      else acc.reverse :: splitWsAux cs [] true
    else splitWsAux cs (c :: acc) false

/-- `content.split(/\s+/)` as a list of strings. -/
def jsSplitWs (s : String) : List String :=
  (splitWsAux s.data [] false).map (fun l => (⟨l⟩ : String))

/-- The source's tokenizer: `content.split(/\s+/).filter(w => w.length > 0)`
(src/lib/library-context.tsx updateBookContent, src/app/reader/[id].tsx words). -/
def tokenize (s : String) : List String :=
  (jsSplitWs s).filter (fun w => decide (0 < w.length))

/-- Stated from the specification's words, for comparison with `tokenize`:
the ordered list of maximal non-empty whitespace-free runs of a character
list.  `acc` holds the reversed run currently being read. -/
def maximalWordsAux : List Char → List Char → List (List Char)
  | [], acc => match acc with
    | [] => []
    | _ => [acc.reverse]
  | c :: cs, acc =>
    if isWs c then
      match acc with
      | [] => maximalWordsAux cs []
      | _ => acc.reverse :: maximalWordsAux cs []
    else maximalWordsAux cs (c :: acc)

/-- Maximal non-empty whitespace-free substrings of a string, in order. -/
def maximalWords (s : String) : List String :=
  (maximalWordsAux s.data []).map (fun l => (⟨l⟩ : String))

/-- Embedding of `getORPIndex` (src/app/reader/[id].tsx lines 60-66 and the
test copy): branch structure kept from the source. -/
def getORPIndex (word : String) : Nat :=
  let len := word.length
  if len ≤ 1 then 0
  else if len ≤ 5 then len / 3
  else if len ≤ 9 then len / 3
  else len / 3

/-! ### Playback engine

The reader screens keep `currentIndex : number` and `isPlaying : boolean`
React state; the word-advancement effect runs a `setInterval` whose callback
is `setCurrentIndex(prev => ...)`, and the effect itself only starts the
interval when `isPlaying && words.length > 0`. -/

/-- Engine state: the cursor (`currentIndex`) and the playing flag. -/
structure EngineState where
  cursor : Nat
  isPlaying : Bool
deriving DecidableEq, Repr

/-- The `setCurrentIndex(prev => ...)` updater run by the interval callback
(src/app/reader/[id].tsx lines 102-109 and 566-573): if `prev >= words.length - 1`
stop playing and keep the cursor, otherwise advance by one.  The JavaScript
comparison is on numbers, so it is taken over `Int` (`words.length - 1` is `-1`
for an empty sequence). -/
def tickUpdate (N : Nat) (st : EngineState) : EngineState :=
  if (st.cursor : Int) ≥ (N : Int) - 1 then { st with isPlaying := false }
  else { st with cursor := st.cursor + 1 }

/-- One interval tick as observed through the effect guard: the interval only
exists while `isPlaying && words.length > 0` (lines 100 and 562), so otherwise
the state is unchanged. -/
def tick (N : Nat) (st : EngineState) : EngineState :=
  if st.isPlaying ∧ 0 < N then tickUpdate N st else st

/-- Embedding of `play` (src/app/reader/[id].tsx lines 537-545): if
`currentIndex >= words.length - 1` reset the cursor to 0, then set
`isPlaying` to true. -/
def play (N : Nat) (st : EngineState) : EngineState :=
  let st1 := if (st.cursor : Int) ≥ (N : Int) - 1 then { st with cursor := 0 } else st
  { st1 with isPlaying := true }

/-- Embedding of `pause` (src/app/reader/[id].tsx lines 547-550). -/
def pause (st : EngineState) : EngineState :=
  { st with isPlaying := false }

/-! ### Library store data model (src/types/index.ts) -/

/-- The `Book` interface.  JavaScript numbers holding integer values are
taken over `Int`; absent optional fields are `none`. -/
structure Book where
  id : String
  title : String
  author : String
  coverUrl : Option String
  description : String
  pageCount : Option Int
  publishYear : Option Int
  subjects : List String
  content : Option String
  currentPosition : Option Int
  totalWords : Option Int
  addedAt : Option Int
deriving DecidableEq, Repr

/-- `fontSize` enumeration of `ReadingSettings`. -/
inductive FontSize where
  | small | medium | large
deriving DecidableEq, Repr

/-- `theme` enumeration of `ReadingSettings`. -/
inductive Theme where
  | system | light | dark
deriving DecidableEq, Repr

/-- The `ReadingSettings` interface. -/
structure ReadingSettings where
  wordsPerMinute : Int
  fontSize : FontSize
  theme : Theme
deriving DecidableEq, Repr

/-- The `ReadingStats` interface. -/
structure ReadingStats where
  totalWordsRead : Int
  booksCompleted : Int
  totalReadingTime : Int
deriving DecidableEq, Repr

/-- `DEFAULT_SETTINGS` from src/types/index.ts. -/
def DEFAULT_SETTINGS : ReadingSettings :=
  { wordsPerMinute := 300, fontSize := .medium, theme := .system }

/-- `DEFAULT_STATS` from src/types/index.ts. -/
def DEFAULT_STATS : ReadingStats :=
  { totalWordsRead := 0, booksCompleted := 0, totalReadingTime := 0 }

/-- A `Partial<ReadingSettings>` argument: each field optionally present. -/
structure SettingsPatch where
  wordsPerMinute : Option Int := none
  fontSize : Option FontSize := none
  theme : Option Theme := none
deriving DecidableEq, Repr

/-- A `Partial<ReadingStats>` argument. -/
structure StatsPatch where
  totalWordsRead : Option Int := none
  booksCompleted : Option Int := none
  totalReadingTime : Option Int := none
deriving DecidableEq, Repr

/-- JavaScript object spread `{ ...s, ...p }` for settings: fields present
in the patch override. -/
def mergeSettings (s : ReadingSettings) (p : SettingsPatch) : ReadingSettings :=
  { wordsPerMinute := p.wordsPerMinute.getD s.wordsPerMinute,
    fontSize := p.fontSize.getD s.fontSize,
    theme := p.theme.getD s.theme }

/-- JavaScript object spread `{ ...s, ...p }` for stats. -/
def mergeStats (s : ReadingStats) (p : StatsPatch) : ReadingStats :=
  { totalWordsRead := p.totalWordsRead.getD s.totalWordsRead,
    booksCompleted := p.booksCompleted.getD s.booksCompleted,
    totalReadingTime := p.totalReadingTime.getD s.totalReadingTime }

/-- The in-memory state owned by the `LibraryProvider`
(src/lib/library-context.tsx): books, settings, stats. -/
structure LibraryState where
  books : List Book
  settings : ReadingSettings
  stats : ReadingStats
deriving DecidableEq, Repr

/-! ### Library store operations (src/lib/library-context.tsx)

Each callback reads the latest state through the `...Ref.current` shadow
references and writes the new value back, so sequential calls compose as
pure state transformers; persistence (`AsyncStorage.setItem`) is
fire-and-forget and does not affect the in-memory state. -/

/-- `addBook` (lines 93-108): no-op if a book with the same id exists,
otherwise append with `addedAt = Date.now()`. -/
def addBook (now : Int) (book : Book) (st : LibraryState) : LibraryState :=
  if st.books.any (fun b => b.id == book.id) then st
  else { st with books := st.books ++ [{ book with addedAt := some now }] }

/-- `removeBook` (lines 110-115): `books.filter(b => b.id !== bookId)`. -/
def removeBook (bookId : String) (st : LibraryState) : LibraryState :=
  { st with books := st.books.filter (fun b => b.id != bookId) }

/-- `updateBookProgress` (lines 117-124): set `currentPosition` on the
matching book, leave the others alone. -/
def updateBookProgress (bookId : String) (position : Int) (st : LibraryState) : LibraryState :=
  { st with books := st.books.map (fun b =>
      if b.id == bookId then { b with currentPosition := some position } else b) }

/-- `updateBookContent` (lines 126-135): recompute the word list from the
new content and set `content` and `totalWords` on the matching book. -/
def updateBookContent (bookId : String) (content : String) (st : LibraryState) : LibraryState :=
  let words := tokenize content
  { st with books := st.books.map (fun b =>
      if b.id == bookId then
        { b with content := some content, totalWords := some (words.length : Int) }
      else b) }

/-- `updateSettings` (lines 141-150): spread-merge the patch over the
current settings. -/
def updateSettings (p : SettingsPatch) (st : LibraryState) : LibraryState :=
  { st with settings := mergeSettings st.settings p }

/-- `updateStats` (lines 152-161): spread-merge the patch over the current
stats. -/
def updateStats (p : StatsPatch) (st : LibraryState) : LibraryState :=
  { st with stats := mergeStats st.stats p }

/-- `incrementWordsRead` (lines 163-172): add `count` to
`totalWordsRead`, keeping the other stats fields. -/
def incrementWordsRead (count : Int) (st : LibraryState) : LibraryState :=
  { st with stats := { st.stats with
      totalWordsRead := st.stats.totalWordsRead + count } }

/-- The Book invariant from the specification's data model: `totalWords`
is present iff `content` is present and then equals `tokenize(content).length`,
and `currentPosition`, when present, lies in `[0, totalWords)`. -/
def bookInv (b : Book) : Bool :=
  (match b.content, b.totalWords with
   | none, none => true
   | some c, some t => t == ((tokenize c).length : Int)
   | _, _ => false) &&
  (match b.currentPosition, b.totalWords with
   | none, _ => true
   | some p, some t => decide (0 ≤ p) && decide (p < t)
   | some _, none => false)

/-- The store invariant: every stored book satisfies the Book invariant. -/
def stateInv (st : LibraryState) : Bool :=
  st.books.all bookInv

/-- One mutating library-store operation together with its arguments. -/
inductive LibOp where
  | addBook (now : Int) (book : Book)
  | removeBook (bookId : String)
  | updateBookProgress (bookId : String) (position : Int)
  | updateBookContent (bookId : String) (content : String)
  | updateSettings (p : SettingsPatch)
  | updateStats (p : StatsPatch)
  | incrementWordsRead (count : Int)

/-- Apply a mutating operation to the store state. -/
def applyOp : LibOp → LibraryState → LibraryState
  | .addBook now book => addBook now book
  | .removeBook bookId => removeBook bookId
  | .updateBookProgress bookId position => updateBookProgress bookId position
  | .updateBookContent bookId content => updateBookContent bookId content
  | .updateSettings p => updateSettings p
  | .updateStats p => updateStats p
  | .incrementWordsRead count => incrementWordsRead count

/-- Side conditions under which an operation's arguments respect the Book
invariant: trivial for the operations that cannot break it, and the
weakest argument conditions forced by the code for the others. -/
def opSafe : LibOp → LibraryState → Prop
  | .addBook _ book, _ => bookInv book = true
  | .removeBook _, _ => True
  | .updateBookProgress bookId position, st =>
      ∀ b ∈ st.books, b.id = bookId →
        ∃ t, b.totalWords = some t ∧ 0 ≤ position ∧ position < t
  | .updateBookContent bookId content, st =>
      ∀ b ∈ st.books, b.id = bookId →
        ∀ p, b.currentPosition = some p →
          0 ≤ p ∧ p < ((tokenize content).length : Int)
  | .updateSettings _, _ => True
  | .updateStats _, _ => True
  | .incrementWordsRead _, _ => True

/-! ### Chapter / landmark detection (src/app/reader/[id].tsx lines 486-517)

The `chapters` memo splits the content on newline characters, trims each
line, and pushes a chapter whenever the trimmed line is shorter than 50
characters and one of the regular expressions
`/\bCHAPTER\s+(\d+|[IVXLC]+)/gi` (and likewise PART, BOOK, SECTION)
matches it; the running `wordIndex` is advanced after every line by the
line's token count. -/

/-- `content.split('\n')` on a character list: chunks between single
newline characters, empties kept. -/
def splitLinesAux : List Char → List Char → List (List Char)
  | [], acc => [acc.reverse]
  | c :: cs, acc =>
    if c == '\n' then acc.reverse :: splitLinesAux cs []
    else splitLinesAux cs (c :: acc)

/-- `content.split('\n')` as a list of strings. -/
def splitLines (s : String) : List String :=
  (splitLinesAux s.data []).map (fun l => (⟨l⟩ : String))

/-- JavaScript `line.trim()`: strip the whitespace class from both ends. -/
def jsTrim (s : String) : String :=
  ⟨((s.data.dropWhile isWs).reverse.dropWhile isWs).reverse⟩

/-- JavaScript word-class `\w`, i.e. `[A-Za-z0-9_]`, used by `\b`. -/
def isWordChar (c : Char) : Bool :=
  c.isAlpha || c.isDigit || c == '_'

/-- A character the `[IVXLC]+` alternative can match; the regular
expressions carry the `i` flag, so lowercase Roman letters match too. -/
def isRomanChar (c : Char) : Bool :=
  let d := c.toLower
  d == 'i' || d == 'v' || d == 'x' || d == 'l' || d == 'c'

/-- Strip a keyword case-insensitively from the front of a character
list, returning the remainder on success. -/
def dropKeyword : List Char → List Char → Option (List Char)
  | [], l => some l
  | _, [] => none
  | k :: ks, c :: cs => if k.toLower == c.toLower then dropKeyword ks cs else none

/-- Does `KEYWORD\s+(\d+|[IVXLC]+)` (case-insensitive) match at the head
of the list?  After the keyword there must be at least one whitespace
character, and the first character after the whitespace run must be a
digit or a Roman-numeral letter. -/
def matchKeywordAt (kw : List Char) (l : List Char) : Bool :=
  match dropKeyword kw l with
  | none => false
  | some rest =>
    match rest with
    | [] => false
    | c :: _ =>
      isWs c &&
        (match rest.dropWhile isWs with
         | [] => false
         | d :: _ => d.isDigit || isRomanChar d)

/-- Scan every position of the line for a match of
`\bKEYWORD\s+(\d+|[IVXLC]+)`; `prevIsWord` tracks whether the previous
character was a word character, so `\b` holds exactly when it is false. -/
def scanKeyword (kw : List Char) : Bool → List Char → Bool
  | _, [] => false
  | prevIsWord, c :: cs =>
    (!prevIsWord && matchKeywordAt kw (c :: cs)) || scanKeyword kw (isWordChar c) cs

/-- The loop body's test on a trimmed line: some chapter pattern matches
and the trimmed line is shorter than 50 characters.  The `break` after
the first matching pattern is reflected by the short-circuit disjunction
(only one chapter is pushed per line either way). -/
def lineMatches (t : String) : Bool :=
  (scanKeyword "CHAPTER".data false t.data ||
   scanKeyword "PART".data false t.data ||
   scanKeyword "BOOK".data false t.data ||
   scanKeyword "SECTION".data false t.data) &&
  decide (t.length < 50)

/-- The `Chapter` interface: a title and a token-offset anchor
(`startIndex`). -/
structure Chapter where
  title : String
  startIndex : Nat
deriving DecidableEq, Repr

/-- The detection loop over the lines, carrying the running `wordIndex`:
a matching line contributes `{title: trimmedLine, startIndex: wordIndex}`,
and `wordIndex` grows by the raw line's token count after every line. -/
def detectAux : List String → Nat → List Chapter
  | [], _ => []
  | line :: rest, idx =>
    let t := jsTrim line
    if lineMatches t then
      { title := t, startIndex := idx } :: detectAux rest (idx + (tokenize line).length)
    else detectAux rest (idx + (tokenize line).length)

/-- The whole `chapters` computation: the synthetic "Beginning" entry at
offset 0 followed by the detected chapters in document order. -/
def detectChapters (content : String) : List Chapter :=
  { title := "Beginning", startIndex := 0 } :: detectAux (splitLines content) 0

/-! ### Concrete sample data used by witnesses and counterexamples -/

/-- A sample book without content. -/
def sampleBook : Book :=
  { id := "b1", title := "T", author := "A", coverUrl := none, description := "",
    pageCount := none, publishYear := none, subjects := [],
    content := none, currentPosition := none, totalWords := none, addedAt := none }

/-- An empty library with nonzero stats. -/
def sampleLib : LibraryState :=
  { books := [],
    settings := DEFAULT_SETTINGS,
    stats := { totalWordsRead := 7, booksCompleted := 1, totalReadingTime := 30 } }

/-- A one-book library whose book satisfies the Book invariant. -/
def invLib : LibraryState :=
  { books := [{ sampleBook with
      content := some "x y", totalWords := some 2, currentPosition := some 0 }],
    settings := DEFAULT_SETTINGS,
    stats := DEFAULT_STATS }

/-- A one-book library used for the frame-property witness. -/
def frameLib : LibraryState :=
  { books := [sampleBook], settings := DEFAULT_SETTINGS, stats := DEFAULT_STATS }

end Flowread

namespace Flowread

/-! ## Theorems for the claims -/

/-- C9: `getORPIndex` is deterministic, pure and total; it returns 0 for
words of length at most 1 and `floor(length / 3)` for every other length,
with the nine concrete values from the specification. -/
theorem orp_index_spec :
    (∀ w : String, getORPIndex w = if w.length ≤ 1 then 0 else w.length / 3) ∧
    getORPIndex "a" = 0 ∧ getORPIndex "at" = 0 ∧ getORPIndex "the" = 1 ∧
    getORPIndex "word" = 1 ∧ getORPIndex "hello" = 1 ∧ getORPIndex "reading" = 2 ∧
    getORPIndex "beautiful" = 3 ∧ getORPIndex "presentation" = 4 ∧
    getORPIndex "understanding" = 4 := by
  refine ⟨fun w => ?_, by decide, by decide, by decide, by decide, by decide,
    by decide, by decide, by decide, by decide⟩
  by_cases h : w.length ≤ 1
  · simp [getORPIndex, h]
  · simp only [getORPIndex, h, if_false]
    split_ifs <;> rfl

/-- C1: sequential `incrementWordsRead` calls accumulate exactly: folding
any finite list of non-negative counts over the store adds their sum to
`totalWordsRead`, with no lost updates. -/
theorem stats_increment_accumulates :
    ∀ (st : LibraryState) (l : List Int), (∀ c ∈ l, 0 ≤ c) →
      (l.foldl (fun s c => incrementWordsRead c s) st).stats.totalWordsRead
        = st.stats.totalWordsRead + l.sum := by
  intro st l h
  induction l generalizing st with
  | nil => simp
  | cons c cs ih =>
    simp only [List.foldl_cons, List.sum_cons]
    rw [ih _ (fun x hx => h x (List.mem_cons_of_mem _ hx))]
    simp only [incrementWordsRead]
    ring

/-- Witness for C1: three `incrementWordsRead(5)` calls on a store whose
`totalWordsRead` is 7 leave it at exactly 22. -/
theorem stats_increment_accumulates_witness :
    (([5, 5, 5] : List Int).foldl (fun s c => incrementWordsRead c s)
        sampleLib).stats.totalWordsRead = 22 := by
  rw [stats_increment_accumulates sampleLib [5, 5, 5] (by decide)]
  decide

/-- C5: replay after completion: with a non-empty sequence of length `N`,
calling `play()` from the Idle state at cursor `N - 1` resets the cursor
to 0 and enters Playing. -/
theorem play_loopback :
    ∀ (N : Nat) (st : EngineState), 1 ≤ N → st.cursor = N - 1 → st.isPlaying = false →
      (play N st).cursor = 0 ∧ (play N st).isPlaying = true := by
  intro N st hN hc _
  have h : (st.cursor : Int) ≥ (N : Int) - 1 := by omega
  simp [play, h]

/-- Witness for C5 at `N = 3`, cursor 2, Idle. -/
theorem play_loopback_witness :
    (play 3 { cursor := 2, isPlaying := false }).cursor = 0 ∧
    (play 3 { cursor := 2, isPlaying := false }).isPlaying = true :=
  play_loopback 3 { cursor := 2, isPlaying := false } (by decide) rfl rfl

/-- Counterexample for C4: on an empty token sequence, `play()` is not a
no-op — it sets `isPlaying` to true rather than leaving it false. -/
theorem play_empty_counterexample :
    ¬ ((play 0 { cursor := 0, isPlaying := false }).isPlaying = false) := by
  decide

/-- C4 amended: on an empty token sequence, `play()` leaves the cursor at
0 and raises no error, but it does set `isPlaying` to true; since the
word-advancement interval only runs for a non-empty sequence, a tick on
the empty sequence changes nothing, so the cursor stays 0 forever. -/
theorem play_empty_amended :
    (play 0 { cursor := 0, isPlaying := false }).cursor = 0 ∧
    (play 0 { cursor := 0, isPlaying := false }).isPlaying = true ∧
    ∀ st : EngineState, tick 0 st = st := by
  refine ⟨by decide, by decide, fun st => ?_⟩
  simp [tick]

/-- Counterexample for C2: with a sequence of length 2, a single tick
from the Playing state at cursor 0 (`= N - 2`) does not transition the
engine to Idle — `isPlaying` is still true afterwards. -/
theorem tick_endstop_counterexample :
    ¬ ((tick 2 { cursor := 0, isPlaying := true }).isPlaying = false) := by
  decide

/-- C2 amended: from cursor `N - 2` while Playing (`N ≥ 2`), a single
tick advances the cursor to `N - 1` with the engine still Playing; the
following tick transitions to Idle without moving the cursor; and no tick
ever moves the cursor past index `N - 1`. -/
theorem tick_endstop_amended :
    (∀ (N : Nat) (st : EngineState), 2 ≤ N → st.cursor = N - 2 → st.isPlaying = true →
       (tick N st).cursor = N - 1 ∧ (tick N st).isPlaying = true ∧
       (tick N (tick N st)).cursor = N - 1 ∧ (tick N (tick N st)).isPlaying = false) ∧
    (∀ (N : Nat) (st : EngineState), st.cursor ≤ N - 1 → (tick N st).cursor ≤ N - 1) := by
  constructor
  · intro N st hN hc hp
    obtain ⟨cur, pl⟩ := st
    simp only at hc hp
    subst hc hp
    have hguard : ∀ c : Nat, ((EngineState.mk c true).isPlaying = true ∧ 0 < N) :=
      fun c => ⟨rfl, by omega⟩
    have h1 : ¬ ((((EngineState.mk (N - 2) true).cursor : Nat) : Int) ≥ (N : Int) - 1) := by
      simp only
      omega
    have step1 : tick N { cursor := N - 2, isPlaying := true } =
        { cursor := N - 2 + 1, isPlaying := true } := by
      unfold tick
      rw [if_pos (hguard (N - 2))]
      unfold tickUpdate
      rw [if_neg h1]
    have hN1 : N - 2 + 1 = N - 1 := by omega
    have h2 : ((((EngineState.mk (N - 1) true).cursor : Nat) : Int) ≥ (N : Int) - 1) := by
      simp only
      omega
    have step2 : tick N { cursor := N - 1, isPlaying := true } =
        { cursor := N - 1, isPlaying := false } := by
      unfold tick
      rw [if_pos (hguard (N - 1))]
      unfold tickUpdate
      rw [if_pos h2]
    rw [step1, hN1, step2]
    exact ⟨rfl, rfl, rfl, rfl⟩
  · intro N st h
    unfold tick tickUpdate
    split
    · split
      · simpa using h
      · rename_i hcond
        simp only
        omega
    · exact h

/-- Updating `addedAt` leaves the Book invariant untouched. -/
theorem bookInv_addedAt (b : Book) (t : Option Int) :
    bookInv { b with addedAt := t } = bookInv b := rfl

/-- C8: `addBook` is idempotent by id: when a book with the same id is
already present the state is unchanged (its original `addedAt` survives);
otherwise exactly one entry is appended, equal to the argument with
`addedAt` set to the insertion time, and it is the only entry with that
id. -/
theorem addBook_idempotent_spec :
    (∀ (t u : Int) (b : Book) (st : LibraryState),
       addBook u b (addBook t b st) = addBook t b st) ∧
    (∀ (t : Int) (b : Book) (st : LibraryState),
       st.books.any (fun x => x.id == b.id) = true → addBook t b st = st) ∧
    (∀ (t : Int) (b : Book) (st : LibraryState),
       st.books.any (fun x => x.id == b.id) = false →
         (addBook t b st).books = st.books ++ [{ b with addedAt := some t }] ∧
         ((addBook t b st).books.countP (fun x => x.id == b.id)) = 1) := by
  refine ⟨?_, ?_, ?_⟩
  · intro t u b st
    by_cases h : st.books.any (fun x => x.id == b.id) = true
    · simp [addBook, h]
    · have h' : st.books.any (fun x => x.id == b.id) = false := by
        simpa using h
      simp [addBook, h']
  · intro t b st h
    simp [addBook, h]
  · intro t b st h
    have hzero : st.books.countP (fun x => x.id == b.id) = 0 := by
      rw [List.countP_eq_zero]
      intro a ha
      have := (List.any_eq_false).mp h a ha
      simpa using this
    constructor
    · simp [addBook, h]
    · simp [addBook, h, List.countP_append, hzero, List.countP_cons]

/-- Witness for C8: adding `sampleBook` to the empty library appends one
stamped entry, exactly one entry with its id exists, and a second add is
a no-op. -/
theorem addBook_idempotent_spec_witness :
    (addBook 10 sampleBook sampleLib).books
        = sampleLib.books ++ [{ sampleBook with addedAt := some 10 }] ∧
    ((addBook 10 sampleBook sampleLib).books.countP
        (fun x => x.id == sampleBook.id)) = 1 ∧
    addBook 20 sampleBook (addBook 10 sampleBook sampleLib)
        = addBook 10 sampleBook sampleLib := by
  have h3 := addBook_idempotent_spec.2.2 10 sampleBook sampleLib (by decide)
  exact ⟨h3.1, h3.2, addBook_idempotent_spec.1 10 20 sampleBook sampleLib⟩

/-- C10: `updateBookContent(id, c)` changes only the `content` and
`totalWords` fields of the book whose id matches; every other field of
that book and every book with a different id are unchanged, and the
collection's length is preserved. -/
theorem updateBookContent_frame :
    ∀ (st : LibraryState) (bookId c : String) (i : Nat) (b : Book),
      st.books[i]? = some b →
      (updateBookContent bookId c st).books.length = st.books.length ∧
      ∃ b', (updateBookContent bookId c st).books[i]? = some b' ∧
        (b.id ≠ bookId → b' = b) ∧
        (b.id = bookId →
          b'.id = b.id ∧ b'.title = b.title ∧ b'.author = b.author ∧
          b'.coverUrl = b.coverUrl ∧ b'.description = b.description ∧
          b'.pageCount = b.pageCount ∧ b'.publishYear = b.publishYear ∧
          b'.subjects = b.subjects ∧ b'.currentPosition = b.currentPosition ∧
          b'.addedAt = b.addedAt ∧
          b'.content = some c ∧ b'.totalWords = some ((tokenize c).length : Int)) := by
  intro st bookId c i b hb
  constructor
  · simp [updateBookContent]
  · refine ⟨if b.id == bookId then
        { b with content := some c, totalWords := some ((tokenize c).length : Int) }
      else b, ?_, ?_, ?_⟩
    · simp [updateBookContent, List.getElem?_map, hb]
    · intro hne
      rw [if_neg (by simpa using hne)]
    · intro heq
      rw [if_pos (by simpa using heq)]
      exact ⟨rfl, rfl, rfl, rfl, rfl, rfl, rfl, rfl, rfl, rfl, rfl, rfl⟩

/-- Witness for C10: updating the single book of `frameLib` keeps its
other fields and sets `totalWords` to the new token count 2. -/
theorem updateBookContent_frame_witness :
    ∃ b', (updateBookContent "b1" "x y" frameLib).books[0]? = some b' ∧
      b'.title = sampleBook.title ∧ b'.currentPosition = sampleBook.currentPosition ∧
      b'.totalWords = some 2 := by
  obtain ⟨-, b', h1, -, h2⟩ :=
    updateBookContent_frame frameLib "b1" "x y" 0 sampleBook (by decide)
  obtain ⟨-, ht, -, -, -, -, -, -, hcp, -, -, hw⟩ := h2 rfl
  exact ⟨b', h1, ht, hcp, by rw [hw]; decide⟩

/-- Setting a position that is within the book's `totalWords` bound keeps
the Book invariant. -/
theorem bookInv_setPos (b : Book) (p t : Int) (hb : bookInv b = true)
    (htw : b.totalWords = some t) (h0 : 0 ≤ p) (hlt : p < t) :
    bookInv { b with currentPosition := some p } = true := by
  obtain ⟨bid, bti, bau, bcu, bde, bpc, bpy, bsu, bco, bcp, btw, bad⟩ := b
  simp only at htw
  subst htw
  unfold bookInv at hb ⊢
  simp only [Bool.and_eq_true] at hb ⊢
  exact ⟨hb.1, by simp [h0, hlt]⟩

/-- Setting content together with its recomputed token count keeps the
Book invariant as long as any stored position is below the new count. -/
theorem bookInv_setContent (b : Book) (c : String)
    (hcp : ∀ p, b.currentPosition = some p → 0 ≤ p ∧ p < ((tokenize c).length : Int)) :
    bookInv { b with content := some c, totalWords := some ((tokenize c).length : Int) } = true := by
  obtain ⟨bid, bti, bau, bcu, bde, bpc, bpy, bsu, bco, bcp, btw, bad⟩ := b
  unfold bookInv
  simp only [Bool.and_eq_true]
  constructor
  · simp
  · cases bcp with
    | none => rfl
    | some p =>
      obtain ⟨h0, hlt⟩ := hcp p rfl
      simp [h0, hlt]

/-- Counterexample for C3: the Book invariant is not preserved under
arbitrary arguments — `updateBookProgress` stores the position without
clamping, so position 5 on a 2-token book breaks `currentPosition < totalWords`. -/
theorem store_invariant_counterexample :
    stateInv invLib = true ∧
    stateInv (updateBookProgress "b1" 5 invLib) = false := by
  decide

/-- C3 amended: every Library Store mutating operation preserves the Book
invariant provided its arguments respect it: unconditionally for
`removeBook`, `updateSettings`, `updateStats` and `incrementWordsRead`;
`addBook` requires the added book to satisfy the invariant;
`updateBookProgress` requires the position to lie in `[0, totalWords)` of
each matched book; `updateBookContent` requires each matched book's
stored position, when present, to lie below the new content's token
count. -/
theorem store_invariant_amended :
    ∀ (op : LibOp) (st : LibraryState), stateInv st = true → opSafe op st →
      stateInv (applyOp op st) = true := by
  intro op st hinv hsafe
  cases op with
  | addBook now book =>
    simp only [applyOp]
    unfold addBook
    split
    · exact hinv
    · have hsafe' : bookInv book = true := hsafe
      show (st.books ++ [{ book with addedAt := some now }]).all bookInv = true
      simp only [stateInv] at hinv
      simp [List.all_append, hinv, bookInv_addedAt, hsafe']
  | removeBook bookId =>
    simp only [applyOp]
    show (st.books.filter _).all bookInv = true
    simp only [stateInv, List.all_eq_true] at hinv
    rw [List.all_eq_true]
    intro b hb
    exact hinv b (List.mem_of_mem_filter hb)
  | updateBookProgress bookId position =>
    simp only [applyOp]
    show (st.books.map _).all bookInv = true
    simp only [stateInv, List.all_eq_true] at hinv
    rw [List.all_eq_true]
    intro b' hb'
    rw [List.mem_map] at hb'
    obtain ⟨b, hb, rfl⟩ := hb'
    by_cases h : (b.id == bookId) = true
    · rw [if_pos h]
      obtain ⟨t, htw, h0, hlt⟩ := hsafe b hb (by simpa using h)
      exact bookInv_setPos b position t (hinv b hb) htw h0 hlt
    · rw [if_neg h]
      exact hinv b hb
  | updateBookContent bookId content =>
    simp only [applyOp]
    show (st.books.map _).all bookInv = true
    simp only [stateInv, List.all_eq_true] at hinv
    rw [List.all_eq_true]
    intro b' hb'
    rw [List.mem_map] at hb'
    obtain ⟨b, hb, rfl⟩ := hb'
    by_cases h : (b.id == bookId) = true
    · rw [if_pos h]
      exact bookInv_setContent b content (hsafe b hb (by simpa using h))
    · rw [if_neg h]
      exact hinv b hb
  | updateSettings p => exact hinv
  | updateStats p => exact hinv
  | incrementWordsRead count => exact hinv

/-- Witness for C3 amended: storing the in-range position 1 on the 2-token
book of `invLib` keeps the invariant. -/
theorem store_invariant_amended_witness :
    stateInv (applyOp (.updateBookProgress "b1" 1) invLib) = true := by
  apply store_invariant_amended
  · decide
  · intro b hb hid
    simp only [invLib, List.mem_singleton] at hb
    subst hb
    exact ⟨2, rfl, by decide, by decide⟩

/-- `all` over a mapped list tests the composed predicate. -/
theorem all_map_comp {α β : Type} (f : α → β) (l : List α) (p : β → Bool) :
    (l.map f).all p = l.all (fun a => p (f a)) := by
  induction l with
  | nil => rfl
  | cons a l ih => simp [ih]

/-- Filtering the empty chunks out of the JavaScript split yields exactly
the maximal non-empty whitespace-free runs, for every accumulator state
the two recursions can reach together. -/
theorem splitWsAux_filter (cs : List Char) :
    (∀ acc, (splitWsAux cs acc false).filter (fun w => decide (0 < w.length))
        = maximalWordsAux cs acc) ∧
    (splitWsAux cs [] true).filter (fun w => decide (0 < w.length))
        = maximalWordsAux cs [] := by
  induction cs with
  | nil =>
    constructor
    · intro acc
      cases acc with
      | nil => simp [splitWsAux, maximalWordsAux]
      | cons a as => simp [splitWsAux, maximalWordsAux]
    · simp [splitWsAux, maximalWordsAux]
  | cons c cs ih =>
    obtain ⟨ih1, ih2⟩ := ih
    constructor
    · intro acc
      by_cases hw : isWs c = true
      · cases acc with
        | nil => simp [splitWsAux, maximalWordsAux, hw, ih2]
        | cons a as => simp [splitWsAux, maximalWordsAux, hw, ih2]
      · simp only [Bool.not_eq_true] at hw
        simp [splitWsAux, maximalWordsAux, hw, ih1]
    · by_cases hw : isWs c = true
      · simp [splitWsAux, maximalWordsAux, hw, ih2]
      · simp only [Bool.not_eq_true] at hw
        simp [splitWsAux, maximalWordsAux, hw, ih1]

/-- Every run produced by `maximalWordsAux` is non-empty and free of
whitespace characters, provided the accumulator is. -/
theorem maximalWordsAux_sound (cs : List Char) :
    ∀ acc, acc.all (fun ch => !isWs ch) = true →
      (maximalWordsAux cs acc).all
        (fun w => decide (0 < w.length) && w.all (fun ch => !isWs ch)) = true := by
  induction cs with
  | nil =>
    intro acc hacc
    cases acc with
    | nil => simp [maximalWordsAux]
    | cons a as => simp_all [maximalWordsAux]
  | cons c cs ih =>
    intro acc hacc
    by_cases hw : isWs c = true
    · cases acc with
      | nil =>
        simp only [maximalWordsAux, hw, if_true]
        exact ih [] rfl
      | cons a as =>
        simp only [maximalWordsAux, hw, if_true, List.all_cons, Bool.and_eq_true]
        exact ⟨by simp_all, ih [] rfl⟩
    · simp only [Bool.not_eq_true] at hw
      simp only [maximalWordsAux, hw, Bool.false_eq_true, if_false]
      exact ih (c :: acc) (by simp_all)

/-- The source tokenizer agrees with the specification's description:
split-on-whitespace plus empty-filter equals the list of maximal
non-empty whitespace-free substrings. -/
theorem tokenize_eq_maximalWords (s : String) : tokenize s = maximalWords s := by
  unfold tokenize jsSplitWs maximalWords
  rw [List.filter_map]
  exact congrArg (List.map _) ((splitWsAux_filter s.data).1 [])

/-- C7: `tokenize` returns the ordered maximal non-empty whitespace-free
substrings; hence contents differing only in whitespace runs tokenize
identically, every token is non-empty and whitespace-free, and the two
concrete examples both give `["Hello", "world", "test"]`. -/
theorem tokenize_spec :
    (∀ s : String, tokenize s = maximalWords s) ∧
    (∀ s s' : String, maximalWords s = maximalWords s' → tokenize s = tokenize s') ∧
    tokenize "Hello    world   test" = ["Hello", "world", "test"] ∧
    tokenize "Hello\nworld\ntest" = ["Hello", "world", "test"] ∧
    (∀ s : String, (tokenize s).all
        (fun w => decide (0 < w.length) && w.data.all (fun ch => !isWs ch)) = true) := by
  refine ⟨tokenize_eq_maximalWords, ?_, by decide, by decide, ?_⟩
  · intro s s' h
    rw [tokenize_eq_maximalWords, tokenize_eq_maximalWords, h]
  · intro s
    rw [tokenize_eq_maximalWords]
    unfold maximalWords
    rw [all_map_comp]
    exact maximalWordsAux_sound s.data [] rfl

/-- Witness for C7: the two whitespace-variant contents produce the same
token sequence. -/
theorem tokenize_spec_witness :
    tokenize "Hello    world   test" = tokenize "Hello\nworld\ntest" :=
  tokenize_spec.2.1 "Hello    world   test" "Hello\nworld\ntest" (by decide)

/-- Every chapter detected from `lines` with running offset `idx` has an
anchor at least `idx`. -/
theorem detectAux_le (lines : List String) :
    ∀ idx, ∀ ch ∈ detectAux lines idx, idx ≤ ch.startIndex := by
  induction lines with
  | nil => intro idx ch h; simp [detectAux] at h
  | cons line rest ih =>
    intro idx ch h
    simp only [detectAux] at h
    split at h
    · rcases List.mem_cons.mp h with rfl | h'
      · simp
      · exact le_trans (Nat.le_add_right _ _) (ih _ ch h')
    · exact le_trans (Nat.le_add_right _ _) (ih _ ch h)

/-- The detected chapter anchors are non-decreasing in document order. -/
theorem detectAux_chain (lines : List String) :
    ∀ idx, List.Chain' (fun a b => a.startIndex ≤ b.startIndex) (detectAux lines idx) := by
  induction lines with
  | nil => intro idx; simp [detectAux]
  | cons line rest ih =>
    intro idx
    simp only [detectAux]
    split
    · refine List.chain'_cons'.mpr ⟨?_, ih _⟩
      intro y hy
      have hm : y ∈ detectAux rest (idx + (tokenize line).length) :=
        List.mem_of_mem_head? hy
      exact le_trans (Nat.le_add_right _ _) (detectAux_le rest _ y hm)
    · exact ih _

/-- Every detected chapter comes from a matching line, its title is that
line trimmed, and its anchor is the running offset plus the token count
of all preceding lines. -/
theorem detectAux_anchor (lines : List String) :
    ∀ idx ch, ch ∈ detectAux lines idx →
      ∃ k l, lines[k]? = some l ∧ lineMatches (jsTrim l) = true ∧ ch.title = jsTrim l ∧
        ch.startIndex = idx + ((lines.take k).map (fun ln => (tokenize ln).length)).sum := by
  induction lines with
  | nil => intro idx ch h; simp [detectAux] at h
  | cons line rest ih =>
    intro idx ch h
    simp only [detectAux] at h
    by_cases hm : lineMatches (jsTrim line) = true
    · rw [if_pos hm] at h
      rcases List.mem_cons.mp h with rfl | h'
      · exact ⟨0, line, by simp, hm, rfl, by simp⟩
      · obtain ⟨k, l, hk, hml, hti, ha⟩ := ih _ ch h'
        refine ⟨k + 1, l, by simpa using hk, hml, hti, ?_⟩
        rw [ha]
        simp only [List.take_succ_cons, List.map_cons, List.sum_cons]
        omega
    · rw [if_neg hm] at h
      obtain ⟨k, l, hk, hml, hti, ha⟩ := ih _ ch h
      refine ⟨k + 1, l, by simpa using hk, hml, hti, ?_⟩
      rw [ha]
      simp only [List.take_succ_cons, List.map_cons, List.sum_cons]
      omega

/-- C6: the chapter detector always returns the synthetic "Beginning"
landmark first, anchors are in ascending (non-decreasing) document
order, every detected landmark's anchor is the total token count of the
lines preceding its matched line, and the specification's concrete
example yields exactly its stated landmark list. -/
theorem detect_chapters_spec :
    (∀ content : String,
       (detectChapters content).head? = some { title := "Beginning", startIndex := 0 }) ∧
    (∀ content : String,
       List.Chain' (fun a b => a.startIndex ≤ b.startIndex) (detectChapters content)) ∧
    (∀ content : String, ∀ ch ∈ (detectChapters content).tail,
       ∃ k l, (splitLines content)[k]? = some l ∧ lineMatches (jsTrim l) = true ∧
         ch.title = jsTrim l ∧
         ch.startIndex
           = (((splitLines content).take k).map (fun ln => (tokenize ln).length)).sum) ∧
    detectChapters "CHAPTER 1\n\nSome text here.\n\nCHAPTER 2\n\nMore text." =
      [{ title := "Beginning", startIndex := 0 },
       { title := "CHAPTER 1", startIndex := 0 },
       { title := "CHAPTER 2", startIndex := 5 }] := by
  refine ⟨fun content => rfl, fun content => ?_, fun content ch hch => ?_, by decide⟩
  · refine List.chain'_cons'.mpr ⟨fun y _ => Nat.zero_le _, detectAux_chain _ 0⟩
  · have h := detectAux_anchor (splitLines content) 0 ch hch
    simpa using h

/-- Witness for C6: the "CHAPTER 2" landmark of the concrete example
comes from a matching line whose preceding lines hold 5 tokens. -/
theorem detect_chapters_spec_witness :
    ∃ k l,
      (splitLines "CHAPTER 1\n\nSome text here.\n\nCHAPTER 2\n\nMore text.")[k]? = some l ∧
      lineMatches (jsTrim l) = true ∧
      ({ title := "CHAPTER 2", startIndex := 5 } : Chapter).title = jsTrim l ∧
      ({ title := "CHAPTER 2", startIndex := 5 } : Chapter).startIndex =
        (((splitLines "CHAPTER 1\n\nSome text here.\n\nCHAPTER 2\n\nMore text.").take k).map
          (fun ln => (tokenize ln).length)).sum :=
  detect_chapters_spec.2.2.1 "CHAPTER 1\n\nSome text here.\n\nCHAPTER 2\n\nMore text."
    { title := "CHAPTER 2", startIndex := 5 } (by decide)

/-- Witness for C2 amended at `N = 3`. -/
theorem tick_endstop_amended_witness :
    ((tick 3 { cursor := 1, isPlaying := true }).cursor = 3 - 1 ∧
     (tick 3 { cursor := 1, isPlaying := true }).isPlaying = true ∧
     (tick 3 (tick 3 { cursor := 1, isPlaying := true })).cursor = 3 - 1 ∧
     (tick 3 (tick 3 { cursor := 1, isPlaying := true })).isPlaying = false) ∧
    (tick 3 { cursor := 2, isPlaying := true }).cursor ≤ 3 - 1 :=
  ⟨tick_endstop_amended.1 3 { cursor := 1, isPlaying := true } (by decide) rfl rfl,
   tick_endstop_amended.2 3 { cursor := 2, isPlaying := true } (by decide)⟩

end Flowread
